import Mathlib

set_option linter.unusedVariables false

/-! Formal model of the vinted-logger-rs delivery pipeline.

The development shallowly embeds the core of the repository:
* a JSON value model standing for `serde_json::Value` together with the
  insertion-ordered map operations used by the code
  (`src/vinted_udp_logger.rs`, `src/vinted_udp_logger/visitor.rs`);
* the byte-level JSON serialization (`serde_json::to_vec`) including the
  string-escaping rules, and UTF-8 byte encoding;
* the mailbox (`futures_channel::mpsc::channel(DEFAULT_BUFFER)`) with the
  non-blocking `sender.clone().try_send` enqueue pattern both producer
  paths use (a fresh clone holds a guaranteed slot, so the enqueue always
  finds room while the receiver lives);
* the tracing layer `Logger::on_event`, the field visitor
  `AdditionalFieldVisitor`, and the builder `Builder::connect_udp`;
* the formatter `VintedJson::format_event` and the span serializer
  `SerializableSpan::serialize` (`src/vinted_json_formatter.rs`);
* the background shipper loop (`background_task` / `handle_udp_connection`).
-/

/-! ## JSON value model (serde_json::Value restricted to what the code builds) -/

mutual

inductive JValue where
  | str : String → JValue
  | num : Nat → JValue
  | bool : Bool → JValue
  | null : JValue
  | arr : JArray → JValue
  | obj : JObject → JValue

inductive JArray where
  | nil : JArray
  | cons : JValue → JArray → JArray

inductive JObject where
  | nil : JObject
  | cons : String → JValue → JObject → JObject

end

/-- Map insertion: replaces the value when the key is present, appends
otherwise (the observable behaviour of `serde_json::map::Map::insert`). -/
def JObject.insert : JObject → String → JValue → JObject
  | .nil, k, v => .cons k v .nil
  | .cons k2 v2 rest, k, v =>
    if k2 = k then .cons k v rest else .cons k2 v2 (rest.insert k v)

/-- Map lookup (`serde_json::map::Map::get`). -/
def JObject.get : JObject → String → Option JValue
  | .nil, _ => none
  | .cons k2 v rest, k => if k2 = k then some v else rest.get k

/-- Whether a key is present. -/
def JObject.hasKey (o : JObject) (k : String) : Bool :=
  (o.get k).isSome

/-- Concatenation of two entry sequences. -/
def JObject.append : JObject → JObject → JObject
  | .nil, o => o
  | .cons k v rest, o => .cons k v (rest.append o)

/-- The keys of an object, in entry order. -/
def JObject.keys : JObject → List String
  | .nil => []
  | .cons k _ rest => k :: rest.keys

/-- Build a `JArray` from a list. -/
def JArray.ofList : List JValue → JArray
  | [] => .nil
  | v :: rest => .cons v (JArray.ofList rest)

/-! ## Byte-level JSON serialization (serde_json::to_vec) -/

/-- Lower-case hexadecimal digit, as emitted by serde_json in
control-character escapes. -/
def hexDigit (n : Nat) : Char :=
  match n % 16 with
  | 0 => '0' | 1 => '1' | 2 => '2' | 3 => '3' | 4 => '4'
  | 5 => '5' | 6 => '6' | 7 => '7' | 8 => '8' | 9 => '9'
  | 10 => 'a' | 11 => 'b' | 12 => 'c' | 13 => 'd' | 14 => 'e'
  | _ => 'f'

/-- serde_json's escaping of one character inside a JSON string: quote and
backslash are escaped, the five short control escapes are used, remaining
control characters become a six-character escape, and everything else is
emitted verbatim. -/
def escapeChar (c : Char) : List Char :=
  if c = '"' then ['\\', '"']
  else if c = '\\' then ['\\', '\\']
  else if c = Char.ofNat 8 then ['\\', 'b']
  else if c = Char.ofNat 9 then ['\\', 't']
  else if c = Char.ofNat 10 then ['\\', 'n']
  else if c = Char.ofNat 12 then ['\\', 'f']
  else if c = Char.ofNat 13 then ['\\', 'r']
  else if c.toNat < 32 then
    ['\\', 'u', '0', '0', hexDigit (c.toNat / 16), hexDigit (c.toNat % 16)]
  else [c]

/-- Escape every character of a string body. -/
def escapeList : List Char → List Char
  | [] => []
  | c :: rest => escapeChar c ++ escapeList rest

/-- Serialization of a JSON string, quotes included. -/
def strChars (s : String) : List Char :=
  '"' :: (escapeList s.data ++ ['"'])

/-- Decimal digit character. -/
def digitChar (d : Nat) : Char :=
  match d % 10 with
  | 0 => '0' | 1 => '1' | 2 => '2' | 3 => '3' | 4 => '4'
  | 5 => '5' | 6 => '6' | 7 => '7' | 8 => '8'
  | _ => '9'

/-- Decimal digits of a natural number, fuelled recursion. -/
def natCharsAux : Nat → Nat → List Char
  | 0, _ => []
  | fuel + 1, n =>
    if n < 10 then [digitChar n]
    else natCharsAux fuel (n / 10) ++ [digitChar (n % 10)]

/-- Decimal representation of a natural number. -/
def natChars (n : Nat) : List Char :=
  natCharsAux (n + 1) n

/-- Opening brace character. -/
def lbraceChar : Char := Char.ofNat 123

/-- Closing brace character. -/
def rbraceChar : Char := Char.ofNat 125

mutual

/-- Characters of the compact JSON text of a value, exactly as
`serde_json::to_vec` lays it out (no extra whitespace). -/
def jsonValueChars : JValue → List Char
  | .str s => strChars s
  | .num n => natChars n
  | .bool b => if b then ['t', 'r', 'u', 'e'] else ['f', 'a', 'l', 's', 'e']
  | .null => ['n', 'u', 'l', 'l']
  | .arr xs => '[' :: (jsonArrayChars xs ++ [']'])
  | .obj o => lbraceChar :: (jsonObjectChars o ++ [rbraceChar])

/-- Comma-separated serialization of array elements. -/
def jsonArrayChars : JArray → List Char
  | .nil => []
  | .cons v .nil => jsonValueChars v
  | .cons v rest => jsonValueChars v ++ ',' :: jsonArrayChars rest

/-- Comma-separated serialization of object entries. -/
def jsonObjectChars : JObject → List Char
  | .nil => []
  | .cons k v .nil => strChars k ++ ':' :: jsonValueChars v
  | .cons k v rest =>
    strChars k ++ ':' :: jsonValueChars v ++ ',' :: jsonObjectChars rest

end

/-- UTF-8 encoding of one character, as a list of byte values. -/
def utf8Bytes (c : Char) : List Nat :=
  let n := c.toNat
  if n < 128 then [n]
  else if n < 2048 then [192 + n / 64, 128 + n % 64]
  else if n < 65536 then [224 + n / 4096, 128 + (n / 64) % 64, 128 + n % 64]
  else [240 + n / 262144, 128 + (n / 4096) % 64, 128 + (n / 64) % 64, 128 + n % 64]

/-- UTF-8 encoding of a character sequence. -/
def charBytes : List Char → List Nat
  | [] => []
  | c :: rest => utf8Bytes c ++ charBytes rest

/-- The UTF-8 bytes of the JSON text of a value: the `Vec<u8>` produced by
`serde_json::to_vec`. -/
def jsonBytes (v : JValue) : List Nat :=
  charBytes (jsonValueChars v)

/-! ## Mailbox (futures_channel::mpsc channel, producer view) -/

/-- An encoded payload: the byte vector crossing the channel. -/
abbrev Payload := List Nat

/-- Capacity given to `mpsc::channel` in `Builder::connect_udp` and
`VintedUdpWriter::new` (`DEFAULT_BUFFER`). -/
def DEFAULT_BUFFER : Nat := 512

/-- Backoff sleep in milliseconds between reconnection rounds
(`DEFAULT_TIMEOUT`). -/
def DEFAULT_TIMEOUT : Nat := 10000

/-- The multi-producer single-consumer channel: the configured buffer
size, the FIFO queue of in-flight payloads, and a closed flag (receiver
gone). The configured size is not a hard bound on the queue: the real
channel's capacity is buffer plus one guaranteed slot per live sender,
and both producer paths clone the sender afresh for every call, so
enqueues always find room (see `Mailbox.cloneTrySend`). -/
structure Mailbox where
  capacity : Nat
  buffer : List Payload
  closed : Bool

/-- Result of a non-blocking `try_send` (`SendErrorKind`): accepted, or
failed because the channel was full, or failed because the receiver is
gone. -/
inductive TrySendResult where
  | accepted : TrySendResult
  | full : TrySendResult
  | disconnected : TrySendResult
deriving DecidableEq

/-- Non-blocking enqueue as both producer paths perform it:
`self.sender.clone().try_send(p)` on the `futures_channel` bounded
sender. The channel's capacity is buffer + number of senders, every
sender holds one guaranteed slot, and `try_send` returns `Full` only for
a sender instance that was parked by its own earlier over-buffer send.
A fresh clone is never parked, so on this call pattern `try_send` never
returns `Full`: while the receiver lives the payload is always appended
(the queue grows even past the configured buffer size), and when the
receiver is gone it fails with `disconnected` and the payload is lost.
It never suspends the caller. -/
def Mailbox.cloneTrySend (mb : Mailbox) (p : Payload) :
    Mailbox × TrySendResult :=
  if mb.closed then (mb, .disconnected)
  else ({ mb with buffer := mb.buffer ++ [p] }, .accepted)

/-- A fresh channel of the given capacity. -/
def Mailbox.new (cap : Nat) : Mailbox :=
  { capacity := cap, buffer := [], closed := false }

/-- One operation on the channel during the pipeline's life. -/
inductive MbOp where
  | send : Payload → MbOp
  | recv : MbOp
  | close : MbOp

/-- Apply one operation: producers `clone().try_send`, the consumer
dequeues the head, dropping all producer handles closes the channel. -/
def Mailbox.applyOp (mb : Mailbox) : MbOp → Mailbox
  | .send p => (mb.cloneTrySend p).1
  | .recv =>
    match mb.buffer with
    | [] => mb
    | _ :: rest => { mb with buffer := rest }
  | .close => { mb with closed := true }

/-- Apply a sequence of operations. -/
def Mailbox.applyOps (mb : Mailbox) (ops : List MbOp) : Mailbox :=
  ops.foldl Mailbox.applyOp mb

/-- `VintedUdpWriter` (src/vinted_udp_writer.rs): a clonable handle around
the channel's sender. -/
structure VintedUdpWriter where
  sender : Mailbox

/-- `io::Write for VintedUdpWriter::write`: clones the sender, fires a
`try_send` whose result is discarded with `let _ =`, and unconditionally
returns `Ok(buf.len())`. -/
def VintedUdpWriter.write (w : VintedUdpWriter) (buf : List Nat) :
    VintedUdpWriter × Except String Nat :=
  ({ sender := (w.sender.cloneTrySend buf).1 }, Except.ok buf.length)

/-! ## Record model and the tracing layer (src/vinted_udp_logger.rs) -/

/-- Severity levels of tracing_core. -/
inductive Level where
  | error : Level
  | warn : Level
  | info : Level
  | debug : Level
  | trace : Level
deriving DecidableEq

/-- The `level_num` string computed in `Logger::on_event`. -/
def levelString : Level → String
  | .error => "Error"
  | .warn => "Warn"
  | .info => "Info"
  | .debug => "Debug"
  | .trace => "Trace"

/-- One tracing event as the layer observes it: its severity and the
ordered sequence of (field name, rendered value) pairs the event's
`record` call hands to the visitor. (`record_debug` pre-renders its value
with the Debug formatter; both callbacks then insert a JSON string.) -/
structure EventData where
  level : Level
  fields : List (String × String)

/-- `AdditionalFieldVisitor::record_value`: insert under the field's own
name. -/
def recordValue (m : JObject) (field : String) (v : JValue) : JObject :=
  m.insert field v

/-- `AdditionalFieldVisitor::record_additional_value`: insert under the
underscore-prefixed name. -/
def recordAdditionalValue (m : JObject) (field : String) (v : JValue) : JObject :=
  m.insert ("_" ++ field) v

/-- The key under which `record_str` files a field. -/
def visitKey (field : String) : String :=
  if field = "target" ∨ field = "module" ∨ field = "file" ∨ field = "message"
  then field
  else "_" ++ field

/-- `AdditionalFieldVisitor::record_str`: the four pass-through names keep
their key, every other field is namespaced with `_`. -/
def recordStr (m : JObject) (field value : String) : JObject :=
  if field = "target" ∨ field = "module" ∨ field = "file" ∨ field = "message"
  then recordValue m field (.str value)
  else recordAdditionalValue m field (.str value)

/-- Visit all fields of an event in order (`event.record(&mut visitor)`). -/
def applyFields (m : JObject) (fs : List (String × String)) : JObject :=
  fs.foldl (fun o f => recordStr o f.1 f.2) m

/-- The JSON object `Logger::on_event` builds for one event: a fresh map,
`level` then `timestamp` inserted first, then the visited event fields.
The method reads only `self.sender` — the `base_object` stored on the
`Logger` is not consulted. -/
def onEventObject (now : String) (ev : EventData) : JObject :=
  applyFields
    ((JObject.nil.insert "level" (.str (levelString ev.level))).insert
      "timestamp" (.str now))
    ev.fields

/-- The bytes `on_event` enqueues: `serde_json::to_vec` of the object with
a single `0` byte pushed at the end (`raw.push(0)`). -/
def payloadBytes (now : String) (ev : EventData) : List Nat :=
  jsonBytes (.obj (onEventObject now ev)) ++ [0]

/-- `Builder` state (additional fields plus identity fields). -/
structure Builder where
  additionalFields : JObject
  facility : String
  host : String
  environment : String

/-- The `Logger` value `connect_udp` returns: it carries the persistent
`base_object` and (hard-coded default) identity strings. -/
structure Logger where
  baseObject : JObject
  facility : String
  host : String
  environment : String

/-- `Builder::connect_udp`: folds the identity fields into `base_object`
(host, environment, facility, in that order), creates the channel with
capacity `DEFAULT_BUFFER`, and returns the `Logger` (whose own
facility/host/environment fields are reset to the defaults, as in the
source) together with the channel. -/
def Builder.connectUdp (b : Builder) : Logger × Mailbox :=
  let base :=
    ((b.additionalFields.insert "host" (.str b.host)).insert
      "environment" (.str b.environment)).insert "facility" (.str b.facility)
  ({ baseObject := base
     facility := "new_facility"
     host := ""
     environment := "dev" },
   Mailbox.new DEFAULT_BUFFER)

/-- `Logger::on_event`: build the object, serialize, push the NUL byte,
`try_send` on a clone of the sender, discard the result, return. The
`logger` argument is present because the method is `&self`; its
`base_object` is never read. -/
def Logger.onEvent (logger : Logger) (now : String) (ev : EventData)
    (mb : Mailbox) : Mailbox :=
  (mb.cloneTrySend (payloadBytes now ev)).1

/-! ## Formatter and span serialization (src/vinted_json_formatter.rs) -/

/-- Outcome of `serde_json::from_str::<Value>` on the `FormattedFields`
buffer stored in a span's extensions: a JSON object, some other valid
JSON value, or a parse error (carried as its rendered message). -/
inductive ParseResult where
  | objVal : JObject → ParseResult
  | nonObj : JValue → ParseResult
  | err : String → ParseResult

/-- Whether the stored field buffer is invalid structured data for a span
(anything but a JSON object). -/
def ParseResult.invalid : ParseResult → Bool
  | .objVal _ => false
  | _ => true

/-- `SerializableSpan::serialize`: entries of one span frame's JSON
object. `da` is `cfg!(debug_assertions)` — the strict build
configuration. Parsed object fields are copied through; a valid non-object
value panics under strict and becomes `field`/`field_error` entries under
lenient; a parse error panics under strict and becomes a `field_error`
entry under lenient; the frame's `name` is appended last in every
non-aborting path. `none` models the process abort (panic). -/
def serializableSpanEntries (da : Bool) (name : String) (p : ParseResult) :
    Option JObject :=
  match p with
  | .objVal fields => some (fields.append (.cons "name" (.str name) .nil))
  | .nonObj v =>
    if da then none
    else
      some (.cons "field" v
        (.cons "field_error" (.str "field was no a valid object")
          (.cons "name" (.str name) .nil)))
  | .err e =>
    if da then none
    else some (.cons "field_error" (.str e) (.cons "name" (.str name) .nil))

/-- One span in scope: its name and the parse outcome of its stored field
buffer. -/
structure SpanInfo where
  name : String
  parsed : ParseResult

/-- `SerializableContext::serialize`: the scope's spans, each serialized
as a frame object; aborts if any frame aborts. -/
def serializableContextVals (da : Bool) : List SpanInfo → Option (List JValue)
  | [] => some []
  | sp :: rest =>
    match serializableSpanEntries da sp.name sp.parsed with
    | none => none
    | some o =>
      match serializableContextVals da rest with
      | none => none
      | some vs => some (.obj o :: vs)

/-- How `tracing_serde` serializes a `Level` (`meta.level().as_serde()`). -/
def levelSerde : Level → String
  | .error => "ERROR"
  | .warn => "WARN"
  | .info => "INFO"
  | .debug => "DEBUG"
  | .trace => "TRACE"

/-- An event as `VintedJson::format_event` sees it: metadata plus the
fields that `SerdeMapVisitor` streams out unchanged, in order. -/
structure FmtEvent where
  level : Level
  target : String
  file : Option String
  modulePath : Option String
  line : Option Nat
  fields : List (String × JValue)

/-- An optional serialized entry (`if let Some(x) = ... serialize_entry`). -/
def optEntry (k : String) (v : Option JValue) : List (String × JValue) :=
  match v with
  | some x => [(k, x)]
  | none => []

/-- The `spans`/`span` entries `format_event` emits when a current span
exists (`if let Some(ref span) = current_span`). -/
def spanEntriesOpt (da : Bool) (currentSpan : Option SpanInfo)
    (scope : List SpanInfo) : Option (List (String × JValue)) :=
  match currentSpan with
  | none => some []
  | some sp =>
    (serializableContextVals da scope).bind fun vs =>
      (serializableSpanEntries da sp.name sp.parsed).map fun so =>
        [("spans", .arr (JArray.ofList vs)), ("span", .obj so)]

/-- `VintedJson::format_event` as the ordered sequence of `serialize_entry`
calls it makes on the streaming map serializer: `@timestamp`, `level`,
`facility`; then the event's own fields (via `SerdeMapVisitor`); then
`target`; then, when a current span exists, `spans` and `span`; then
`thread_id`, optional `thread_name`, and optional `file`, `module`,
`line`, `host`. `none` models the abort from strict-mode span
serialization. -/
def formatEventEntries (da : Bool) (facility timestamp : String)
    (ev : FmtEvent) (currentSpan : Option SpanInfo) (scope : List SpanInfo)
    (threadId : String) (threadName : Option String)
    (hostname : Option String) : Option (List (String × JValue)) :=
  (spanEntriesOpt da currentSpan scope).map fun spanEntries =>
    [("@timestamp", .str timestamp),
     ("level", .str (levelSerde ev.level)),
     ("facility", .str facility)]
    ++ ev.fields
    ++ [("target", .str ev.target)]
    ++ spanEntries
    ++ [("thread_id", .str threadId)]
    ++ optEntry "thread_name" (threadName.map .str)
    ++ optEntry "file" (ev.file.map .str)
    ++ optEntry "module" (ev.modulePath.map .str)
    ++ optEntry "line" (ev.line.map .num)
    ++ optEntry "host" (hostname.map .str)

/-- The keys that follow the event's own fields in `format_event`'s
output, computed from which optional parts are present. -/
def structuralTail (currentSpan : Option SpanInfo) (threadName : Option String)
    (ev : FmtEvent) (hostname : Option String) : List String :=
  ["target"]
  ++ (match currentSpan with
      | some _ => ["spans", "span"]
      | none => [])
  ++ ["thread_id"]
  ++ (match threadName with
      | some _ => ["thread_name"]
      | none => [])
  ++ (match ev.file with
      | some _ => ["file"]
      | none => [])
  ++ (match ev.modulePath with
      | some _ => ["module"]
      | none => [])
  ++ (match ev.line with
      | some _ => ["line"]
      | none => [])
  ++ (match hostname with
      | some _ => ["host"]
      | none => [])

/-! ## The shipper background task (background_task / handle_udp_connection) -/

/-- A resolved socket address; only its address family matters to the
model (the bind address must match it). -/
structure Addr where
  isIpv4 : Bool

/-- The environment the background task runs against: per round, the DNS
resolution outcome, per address the bind outcome, and per payload the
socket send outcome. -/
structure BgEnv where
  resolved : Nat → List Addr
  bindOk : Nat → Addr → Bool
  sendOk : Nat → Payload → Bool

/-- The send loop of `handle_udp_connection` over a closed channel:
`receiver.next()` yields the buffered payloads in order and then `None`.
An empty buffer ends the `while let` (the loop exits); a failed
`sink.send` breaks out, leaving the rest of the buffer queued. The result
is the remaining buffer. -/
def sendLoopClosed (sendOk : Payload → Bool) : List Payload → List Payload
  | [] => []
  | p :: rest => if sendOk p then sendLoopClosed sendOk rest else rest

/-- `handle_udp_connection` over a closed channel: a failed bind returns
immediately; otherwise the send loop runs. -/
def handleUdpConnectionClosed (bindOk : Bool) (sendOk : Payload → Bool)
    (mb : Mailbox) : Mailbox :=
  if bindOk then { mb with buffer := sendLoopClosed sendOk mb.buffer } else mb

/-- One iteration of the `loop` in `background_task`: resolve, run the
connection handler for each resolved address, sleep `DEFAULT_TIMEOUT`.
The body contains no `break` and no `return`, so it always produces
`Sum.inr` (continue with the new state); `Sum.inl` would model the loop
exiting. -/
def bgLoopBody (env : BgEnv) (round : Nat) (mb : Mailbox) : Sum Unit Mailbox :=
  Sum.inr
    ((env.resolved round).foldl
      (fun m a => handleUdpConnectionClosed (env.bindOk round a) (env.sendOk round) m)
      mb)

/-- Run the background task for a given number of outer-loop iterations,
starting at a given round index; `Sum.inl` reports that the loop exited
within the budget. -/
def bgRunAux (env : BgEnv) : Nat → Nat → Mailbox → Sum Unit Mailbox
  | _, 0, mb => Sum.inr mb
  | round, n + 1, mb =>
    match bgLoopBody env round mb with
    | Sum.inl u => Sum.inl u
    | Sum.inr mb2 => bgRunAux env (round + 1) n mb2

/-- Whether the background task's future completes within `n` outer-loop
iterations. -/
def bgTerminatedWithin (env : BgEnv) (mb : Mailbox) (n : Nat) : Bool :=
  match bgRunAux env 0 n mb with
  | Sum.inl _ => true
  | Sum.inr _ => false

/-! ## The Connected send loop as a state machine (for the re-resolution claim) -/

/-- The two phases of the shipper's reconnection cycle. -/
inductive ShipperPhase where
  | connected : ShipperPhase
  | resolving : ShipperPhase
deriving DecidableEq

/-- What one iteration of the Connected send loop can observe. The loop
body awaits exactly two things — `receiver.next()` and `sink.send` — so
its input alphabet is: an item arrived and the send succeeded, an item
arrived and the send failed, or the channel reported closed. The source
contains no timer or timeout await inside this loop. -/
inductive ConnEvent where
  | recvItem : Bool → ConnEvent
  | recvClosed : ConnEvent
deriving DecidableEq

/-- One iteration of the `while let` send loop in `handle_udp_connection`:
a successful send stays in the loop (Connected); a send error `break`s and
a closed channel ends the `while let`, both falling back to the outer
resolution cycle (Resolving). -/
def connectedStep : ConnEvent → ShipperPhase
  | .recvItem true => .connected
  | .recvItem false => .resolving
  | .recvClosed => .resolving

/-- A run of the send loop in which the channel stays open and every send
succeeds: each step observes `recvItem true`. -/
def healthyRun : Nat → ShipperPhase
  | 0 => .connected
  | n + 1 =>
    match healthyRun n with
    | .connected => connectedStep (.recvItem true)
    | .resolving => .resolving

/-! ## Helper lemmas: map operations -/

theorem JObject.get_insert_self : ∀ (m : JObject) (k : String) (v : JValue),
    (m.insert k v).get k = some v
  | .nil, k, v => by simp [JObject.insert, JObject.get]
  | .cons k2 v2 rest, k, v => by
    by_cases h : k2 = k
    · simp [JObject.insert, JObject.get, h]
    · simp [JObject.insert, JObject.get, h, JObject.get_insert_self rest k v]

theorem JObject.get_insert_ne : ∀ (m : JObject) (k2 k : String) (v : JValue),
    k2 ≠ k → (m.insert k2 v).get k = m.get k
  | .nil, k2, k, v, h => by simp [JObject.insert, JObject.get, h]
  | .cons k3 v3 rest, k2, k, v, h => by
    by_cases h3 : k3 = k2
    · subst h3
      simp [JObject.insert, JObject.get, h]
    · simp [JObject.insert, JObject.get, h3,
        JObject.get_insert_ne rest k2 k v h]

theorem underscore_append_ne_level (s : String) : "_" ++ s ≠ "level" := by
  intro h
  have h2 := congrArg String.data h
  rw [String.data_append] at h2
  simp at h2

theorem underscore_append_inj (s t : String) (h : "_" ++ s = "_" ++ t) :
    s = t := by
  have h2 := congrArg String.data h
  rw [String.data_append, String.data_append] at h2
  exact String.ext (List.append_cancel_left h2)

theorem visitKey_ne_level (f : String) : visitKey f ≠ "level" := by
  unfold visitKey
  split
  · rename_i h
    rcases h with h | h | h | h <;> subst h <;> decide
  · exact underscore_append_ne_level f

theorem visitKey_eq_underscore_level_iff (f : String) :
    visitKey f = "_level" ↔ f = "level" := by
  constructor
  · intro h
    unfold visitKey at h
    split at h
    · rename_i hc
      rcases hc with hc | hc | hc | hc <;> subst hc <;> simp_all
    · exact underscore_append_inj f "level" h
  · intro h
    subst h
    decide

theorem recordStr_eq_insert (m : JObject) (f v : String) :
    recordStr m f v = m.insert (visitKey f) (.str v) := by
  unfold recordStr visitKey recordValue recordAdditionalValue
  split <;> rfl

theorem applyFields_get_stable : ∀ (fs : List (String × String)) (m : JObject)
    (k : String), (∀ f ∈ fs, visitKey f.1 ≠ k) →
    (applyFields m fs).get k = m.get k
  | [], m, k, _ => rfl
  | f :: rest, m, k, h => by
    have hf : visitKey f.1 ≠ k := h f (List.mem_cons_self f rest)
    have hrest : ∀ g ∈ rest, visitKey g.1 ≠ k :=
      fun g hg => h g (List.mem_cons_of_mem f hg)
    show (applyFields (recordStr m f.1 f.2) rest).get k = m.get k
    rw [applyFields_get_stable rest (recordStr m f.1 f.2) k hrest,
      recordStr_eq_insert, JObject.get_insert_ne m (visitKey f.1) k _ hf]

/-! ## Helper lemmas: the serialized JSON text contains no NUL character -/

theorem hexDigit_toNat_ne (n : Nat) : (hexDigit n).toNat ≠ 0 := by
  unfold hexDigit
  split <;> decide

theorem digitChar_toNat_ne (n : Nat) : (digitChar n).toNat ≠ 0 := by
  unfold digitChar
  split <;> decide

theorem mem_pair_toNat_ne (a b c2 : Char) (ha : a.toNat ≠ 0)
    (hb : b.toNat ≠ 0) (h : c2 ∈ [a, b]) : c2.toNat ≠ 0 := by
  rcases List.mem_cons.mp h with h | h
  · subst h; exact ha
  · rcases List.mem_cons.mp h with h | h
    · subst h; exact hb
    · exact absurd h (List.not_mem_nil c2)

theorem escapeChar_toNat_ne (c c2 : Char) (h : c2 ∈ escapeChar c) :
    c2.toNat ≠ 0 := by
  unfold escapeChar at h
  split at h
  · exact mem_pair_toNat_ne _ _ _ (by decide) (by decide) h
  · split at h
    · exact mem_pair_toNat_ne _ _ _ (by decide) (by decide) h
    · split at h
      · exact mem_pair_toNat_ne _ _ _ (by decide) (by decide) h
      · split at h
        · exact mem_pair_toNat_ne _ _ _ (by decide) (by decide) h
        · split at h
          · exact mem_pair_toNat_ne _ _ _ (by decide) (by decide) h
          · split at h
            · exact mem_pair_toNat_ne _ _ _ (by decide) (by decide) h
            · split at h
              · exact mem_pair_toNat_ne _ _ _ (by decide) (by decide) h
              · split at h
                · rcases List.mem_cons.mp h with h | h
                  · subst h; decide
                  · rcases List.mem_cons.mp h with h | h
                    · subst h; decide
                    · rcases List.mem_cons.mp h with h | h
                      · subst h; decide
                      · rcases List.mem_cons.mp h with h | h
                        · subst h; decide
                        · rcases List.mem_cons.mp h with h | h
                          · subst h; exact hexDigit_toNat_ne _
                          · rcases List.mem_cons.mp h with h | h
                            · subst h; exact hexDigit_toNat_ne _
                            · exact absurd h (List.not_mem_nil c2)
                · rcases List.mem_cons.mp h with h | h
                  · subst h
                    rename_i hge
                    omega
                  · exact absurd h (List.not_mem_nil c2)

theorem escapeList_toNat_ne : ∀ (cs : List Char) (c : Char),
    c ∈ escapeList cs → c.toNat ≠ 0
  | [], c, h => absurd h (List.not_mem_nil c)
  | d :: rest, c, h => by
    simp only [escapeList] at h
    rcases List.mem_append.mp h with h1 | h1
    · exact escapeChar_toNat_ne d c h1
    · exact escapeList_toNat_ne rest c h1

theorem strChars_toNat_ne (s : String) (c : Char) (h : c ∈ strChars s) :
    c.toNat ≠ 0 := by
  replace h : c ∈ '"' :: (escapeList s.data ++ ['"']) := h
  rcases List.mem_cons.mp h with h | h
  · subst h; decide
  · rcases List.mem_append.mp h with h | h
    · exact escapeList_toNat_ne s.data c h
    · rcases List.mem_cons.mp h with h | h
      · subst h; decide
      · exact absurd h (List.not_mem_nil c)

theorem natCharsAux_toNat_ne : ∀ (fuel n : Nat) (c : Char),
    c ∈ natCharsAux fuel n → c.toNat ≠ 0
  | 0, _, c, h => absurd h (List.not_mem_nil c)
  | fuel + 1, n, c, h => by
    simp only [natCharsAux] at h
    split at h
    · rcases List.mem_cons.mp h with h | h
      · subst h; exact digitChar_toNat_ne n
      · exact absurd h (List.not_mem_nil c)
    · rcases List.mem_append.mp h with h1 | h1
      · exact natCharsAux_toNat_ne fuel (n / 10) c h1
      · rcases List.mem_cons.mp h1 with h1 | h1
        · subst h1; exact digitChar_toNat_ne (n % 10)
        · exact absurd h1 (List.not_mem_nil c)

theorem natChars_toNat_ne (n : Nat) (c : Char) (h : c ∈ natChars n) :
    c.toNat ≠ 0 :=
  natCharsAux_toNat_ne (n + 1) n c h

mutual

theorem jsonValueChars_toNat_ne : ∀ (v : JValue) (c : Char),
    c ∈ jsonValueChars v → c.toNat ≠ 0
  | .str s, c, h => strChars_toNat_ne s c h
  | .num n, c, h => natChars_toNat_ne n c h
  | .bool false, c, h => by
    replace h : c ∈ ['f', 'a', 'l', 's', 'e'] := h
    rcases List.mem_cons.mp h with h | h
    · subst h; decide
    · rcases List.mem_cons.mp h with h | h
      · subst h; decide
      · rcases List.mem_cons.mp h with h | h
        · subst h; decide
        · rcases List.mem_cons.mp h with h | h
          · subst h; decide
          · rcases List.mem_cons.mp h with h | h
            · subst h; decide
            · exact absurd h (List.not_mem_nil c)
  | .bool true, c, h => by
    replace h : c ∈ ['t', 'r', 'u', 'e'] := h
    rcases List.mem_cons.mp h with h | h
    · subst h; decide
    · rcases List.mem_cons.mp h with h | h
      · subst h; decide
      · rcases List.mem_cons.mp h with h | h
        · subst h; decide
        · rcases List.mem_cons.mp h with h | h
          · subst h; decide
          · exact absurd h (List.not_mem_nil c)
  | .null, c, h => by
    replace h : c ∈ ['n', 'u', 'l', 'l'] := h
    rcases List.mem_cons.mp h with h | h
    · subst h; decide
    · rcases List.mem_cons.mp h with h | h
      · subst h; decide
      · rcases List.mem_cons.mp h with h | h
        · subst h; decide
        · rcases List.mem_cons.mp h with h | h
          · subst h; decide
          · exact absurd h (List.not_mem_nil c)
  | .arr xs, c, h => by
    replace h : c ∈ '[' :: (jsonArrayChars xs ++ [']']) := h
    rcases List.mem_cons.mp h with h | h
    · subst h; decide
    · rcases List.mem_append.mp h with h | h
      · exact jsonArrayChars_toNat_ne xs c h
      · rcases List.mem_cons.mp h with h | h
        · subst h; decide
        · exact absurd h (List.not_mem_nil c)
  | .obj o, c, h => by
    replace h : c ∈ lbraceChar :: (jsonObjectChars o ++ [rbraceChar]) := h
    rcases List.mem_cons.mp h with h | h
    · subst h; decide
    · rcases List.mem_append.mp h with h | h
      · exact jsonObjectChars_toNat_ne o c h
      · rcases List.mem_cons.mp h with h | h
        · subst h; decide
        · exact absurd h (List.not_mem_nil c)

theorem jsonArrayChars_toNat_ne : ∀ (xs : JArray) (c : Char),
    c ∈ jsonArrayChars xs → c.toNat ≠ 0
  | .nil, c, h => absurd h (List.not_mem_nil c)
  | .cons v .nil, c, h => jsonValueChars_toNat_ne v c h
  | .cons v (.cons v2 rest), c, h => by
    replace h : c ∈ jsonValueChars v ++ ',' :: jsonArrayChars (.cons v2 rest) := h
    rcases List.mem_append.mp h with h | h
    · exact jsonValueChars_toNat_ne v c h
    · rcases List.mem_cons.mp h with h | h
      · subst h; decide
      · exact jsonArrayChars_toNat_ne (.cons v2 rest) c h

theorem jsonObjectChars_toNat_ne : ∀ (o : JObject) (c : Char),
    c ∈ jsonObjectChars o → c.toNat ≠ 0
  | .nil, c, h => absurd h (List.not_mem_nil c)
  | .cons k v .nil, c, h => by
    replace h : c ∈ strChars k ++ ':' :: jsonValueChars v := h
    rcases List.mem_append.mp h with h | h
    · exact strChars_toNat_ne k c h
    · rcases List.mem_cons.mp h with h | h
      · subst h; decide
      · exact jsonValueChars_toNat_ne v c h
  | .cons k v (.cons k2 v2 rest), c, h => by
    replace h : c ∈ strChars k ++ ':' :: jsonValueChars v ++
      ',' :: jsonObjectChars (.cons k2 v2 rest) := h
    rcases List.mem_append.mp h with h | h
    · rcases List.mem_append.mp h with h | h
      · exact strChars_toNat_ne k c h
      · rcases List.mem_cons.mp h with h | h
        · subst h; decide
        · exact jsonValueChars_toNat_ne v c h
    · rcases List.mem_cons.mp h with h | h
      · subst h; decide
      · exact jsonObjectChars_toNat_ne (.cons k2 v2 rest) c h

end

theorem utf8Bytes_ne_zero (c : Char) (h : c.toNat ≠ 0) :
    (0 : Nat) ∉ utf8Bytes c := by
  intro hmem
  simp only [utf8Bytes] at hmem
  split at hmem
  · simp at hmem; omega
  · split at hmem
    · simp at hmem; rcases hmem with h1 | h1 <;> omega
    · split at hmem
      · simp at hmem; rcases hmem with h1 | h1 | h1 <;> omega
      · simp at hmem; rcases hmem with h1 | h1 | h1 | h1 <;> omega

theorem charBytes_ne_zero : ∀ (cs : List Char),
    (∀ c ∈ cs, c.toNat ≠ 0) → (0 : Nat) ∉ charBytes cs
  | [], _ => by simp [charBytes]
  | c :: rest, h => by
    intro hmem
    simp only [charBytes] at hmem
    rcases List.mem_append.mp hmem with h1 | h1
    · exact utf8Bytes_ne_zero c (h c (List.mem_cons_self c rest)) h1
    · exact charBytes_ne_zero rest
        (fun d hd => h d (List.mem_cons_of_mem c hd)) h1

theorem jsonBytes_ne_zero (v : JValue) : (0 : Nat) ∉ jsonBytes v :=
  charBytes_ne_zero (jsonValueChars v) (jsonValueChars_toNat_ne v)

/-! ## Helper lemmas: the channel under operations, and the background loop -/

theorem Mailbox.applyOp_capacity (mb : Mailbox) (op : MbOp) :
    (mb.applyOp op).capacity = mb.capacity := by
  cases op with
  | send p =>
    simp only [Mailbox.applyOp, Mailbox.cloneTrySend]
    split
    · rfl
    · rfl
  | recv =>
    simp only [Mailbox.applyOp]
    split
    · rfl
    · rfl
  | close => rfl

theorem Mailbox.applyOps_capacity : ∀ (ops : List MbOp) (mb : Mailbox),
    (mb.applyOps ops).capacity = mb.capacity
  | [], _ => rfl
  | op :: rest, mb => by
    show (Mailbox.applyOps (mb.applyOp op) rest).capacity = mb.capacity
    rw [Mailbox.applyOps_capacity rest (mb.applyOp op),
      Mailbox.applyOp_capacity mb op]

theorem sendsGrow : ∀ (n : Nat) (mb : Mailbox), mb.closed = false →
    (mb.applyOps (List.replicate n (MbOp.send []))).buffer.length
      = mb.buffer.length + n ∧
    (mb.applyOps (List.replicate n (MbOp.send []))).closed = false
  | 0, mb, h => ⟨rfl, h⟩
  | n + 1, mb, h => by
    have hstep : mb.applyOp (MbOp.send []) =
        { mb with buffer := mb.buffer ++ [[]] } := by
      simp [Mailbox.applyOp, Mailbox.cloneTrySend, h]
    have ih := sendsGrow n { mb with buffer := mb.buffer ++ [[]] } h
    rw [List.replicate_succ]
    show (Mailbox.applyOps (mb.applyOp (MbOp.send []))
        (List.replicate n (MbOp.send []))).buffer.length
        = mb.buffer.length + (n + 1) ∧
      (Mailbox.applyOps (mb.applyOp (MbOp.send []))
        (List.replicate n (MbOp.send []))).closed = false
    rw [hstep]
    refine ⟨?_, ih.2⟩
    rw [ih.1]
    simp only [List.length_append, List.length_singleton]
    omega

theorem bgRunAux_never_exits : ∀ (env : BgEnv) (round n : Nat) (mb : Mailbox),
    ∃ mb2, bgRunAux env round n mb = Sum.inr mb2
  | _, _, 0, mb => ⟨mb, rfl⟩
  | env, round, n + 1, mb => by
    simp only [bgRunAux, bgLoopBody]
    exact bgRunAux_never_exits env (round + 1) n _

theorem bgTerminatedWithin_false (env : BgEnv) (mb : Mailbox) (n : Nat) :
    bgTerminatedWithin env mb n = false := by
  obtain ⟨mb2, h⟩ := bgRunAux_never_exits env 0 n mb
  simp [bgTerminatedWithin, h]

theorem handleUdpConnectionClosed_empty (b : Bool) (f : Payload → Bool) :
    ∀ (mb : Mailbox), mb.buffer = [] → handleUdpConnectionClosed b f mb = mb
  | ⟨cap, buf, cl⟩, h => by
    replace h : buf = [] := h
    subst h
    unfold handleUdpConnectionClosed
    split
    · rfl
    · rfl

theorem bgLoopBody_empty (env : BgEnv) (round : Nat) (mb : Mailbox)
    (h : mb.buffer = []) : bgLoopBody env round mb = Sum.inr mb := by
  unfold bgLoopBody
  congr 1
  have hfold : ∀ (l : List Addr),
      l.foldl (fun m a =>
        handleUdpConnectionClosed (env.bindOk round a) (env.sendOk round) m) mb = mb := by
    intro l
    induction l with
    | nil => rfl
    | cons a rest ih =>
      rw [List.foldl_cons, handleUdpConnectionClosed_empty _ _ mb h]
      exact ih
  exact hfold _

theorem bgRunAux_empty : ∀ (env : BgEnv) (round n : Nat) (mb : Mailbox),
    mb.buffer = [] → bgRunAux env round n mb = Sum.inr mb
  | _, _, 0, _, _ => rfl
  | env, round, n + 1, mb, h => by
    simp only [bgRunAux, bgLoopBody_empty env round mb h]
    exact bgRunAux_empty env (round + 1) n mb h

theorem healthyRun_connected : ∀ (n : Nat),
    healthyRun n = ShipperPhase.connected
  | 0 => rfl
  | n + 1 => by
    simp only [healthyRun, healthyRun_connected n]
    rfl

/-! ## Helper lemmas: the visited-fields fold -/

theorem applyFields_append (m : JObject) (l1 l2 : List (String × String)) :
    applyFields m (l1 ++ l2) = applyFields (applyFields m l1) l2 := by
  simp [applyFields, List.foldl_append]

theorem applyFields_cons (m : JObject) (f : String × String)
    (fs : List (String × String)) :
    applyFields m (f :: fs) = applyFields (recordStr m f.1 f.2) fs := rfl

theorem applyFields_cons_pair (m : JObject) (a b : String)
    (fs : List (String × String)) :
    applyFields m ((a, b) :: fs) = applyFields (recordStr m a b) fs := rfl

/-! ## Claim theorems -/

/-- C1 counterexample: a mailbox already holding as many payloads as its
configured capacity (capacity 1, one buffered payload, receiver alive)
does not drop the next payload: `clone().try_send` accepts it and the
queue grows to two entries, refuting the claim's drop-at-capacity
behaviour at this concrete input. -/
theorem c1_counterexample :
    ((Mailbox.mk 1 [[65]] false).cloneTrySend [66]).2 =
      TrySendResult.accepted ∧
    ((Mailbox.mk 1 [[65]] false).cloneTrySend [66]).1.buffer =
      [[65], [66]] :=
  ⟨rfl, rfl⟩

/-- C1 (amended): the producer-facing operations are infallible and
non-blocking — `VintedUdpWriter::write` returns `Ok(buf.len())` for
every input buffer and `on_event` completes with no error surfaced —
but a payload offered when the channel is at capacity is not dropped:
the fresh per-call sender clone holds a guaranteed slot, so
`clone().try_send` never returns `Full`; while the receiver lives every
payload is appended (the queue grows past the configured capacity), and
a payload is lost only when the receiver is gone (disconnected), still
with no error reaching the call site. -/
theorem c1_producer_never_fails (w : VintedUdpWriter) (buf : List Nat)
    (p : Payload) (lg : Logger) (now : String) (ev : EventData)
    (mb : Mailbox) :
    (w.write buf).2 = Except.ok buf.length ∧
    (mb.cloneTrySend p).2 ≠ TrySendResult.full ∧
    (mb.closed = false →
      lg.onEvent now ev mb =
        { mb with buffer := mb.buffer ++ [payloadBytes now ev] }) ∧
    (mb.closed = true → lg.onEvent now ev mb = mb) := by
  refine ⟨rfl, ?_, fun hc => ?_, fun hc => ?_⟩
  · unfold Mailbox.cloneTrySend
    split
    · simp
    · simp
  · simp [Logger.onEvent, Mailbox.cloneTrySend, hc]
  · simp [Logger.onEvent, Mailbox.cloneTrySend, hc]

/-- C1 witness: a concrete open mailbox of capacity 1 already holding
one payload (the enqueue still appends), and a concrete disconnected
mailbox (the payload is lost with no error). -/
theorem c1_witness :
    ((VintedUdpWriter.mk (Mailbox.mk 1 [[65]] false)).write [7, 8]).2 =
      Except.ok 2 ∧
    (Logger.mk JObject.nil "f" "h" "e").onEvent "t" (EventData.mk .info [])
      (Mailbox.mk 1 [[65]] false) =
      Mailbox.mk 1 [[65], payloadBytes "t" (EventData.mk .info [])] false ∧
    (Logger.mk JObject.nil "f" "h" "e").onEvent "t" (EventData.mk .info [])
      (Mailbox.mk 1 [] true) = Mailbox.mk 1 [] true := by
  have h := c1_producer_never_fails
    (VintedUdpWriter.mk (Mailbox.mk 1 [[65]] false)) [7, 8] [9]
    (Logger.mk JObject.nil "f" "h" "e") "t" (EventData.mk .info [])
    (Mailbox.mk 1 [[65]] false)
  have h2 := c1_producer_never_fails
    (VintedUdpWriter.mk (Mailbox.mk 1 [[65]] false)) [7, 8] [9]
    (Logger.mk JObject.nil "f" "h" "e") "t" (EventData.mk .info [])
    (Mailbox.mk 1 [] true)
  exact ⟨h.1, h.2.2.1 rfl, h2.2.2.2 rfl⟩

/-- C2: evaluation of the code at the failing input. With facility "svc",
host "h", environment "prod" configured at construction, `connect_udp`
does store them in the Logger's `base_object`, yet the object `on_event`
encodes for an event carries none of the three identity keys, because
`on_event` starts from a fresh map and never merges `base_object`. -/
theorem c2_identity_fields_missing :
    ((Builder.mk JObject.nil "svc" "h" "prod").connectUdp.1.baseObject.get
        "facility" = some (JValue.str "svc") ∧
      (Builder.mk JObject.nil "svc" "h" "prod").connectUdp.1.baseObject.get
        "host" = some (JValue.str "h") ∧
      (Builder.mk JObject.nil "svc" "h" "prod").connectUdp.1.baseObject.get
        "environment" = some (JValue.str "prod")) ∧
    (onEventObject "ts" (EventData.mk .info [("message", "m")])).get
        "facility" = none ∧
    (onEventObject "ts" (EventData.mk .info [("message", "m")])).get
        "host" = none ∧
    (onEventObject "ts" (EventData.mk .info [("message", "m")])).get
        "environment" = none :=
  ⟨⟨rfl, rfl, rfl⟩, rfl, rfl, rfl⟩

/-- C3: the strict/lenient policy of span serialization. For a span whose
stored field buffer is invalid structured data, the lenient configuration
(`debug_assertions` off) produces a frame object that contains a
`field_error` key without aborting, while the strict configuration
(`debug_assertions` on) aborts; the behaviour is selected by the build
configuration parameter, not hardcoded. -/
theorem c3_strict_lenient_policy (name : String) (p : ParseResult)
    (h : p.invalid = true) :
    ((serializableSpanEntries false name p).map fun o =>
      o.hasKey "field_error") = some true ∧
    serializableSpanEntries true name p = none := by
  cases p with
  | objVal o => simp [ParseResult.invalid] at h
  | nonObj v => exact ⟨rfl, rfl⟩
  | err e => exact ⟨rfl, rfl⟩

/-- C3 witness: a concrete span named "sp" whose stored buffer fails to
parse. -/
theorem c3_witness :
    ((serializableSpanEntries false "sp" (.err "boom")).map fun o =>
      o.hasKey "field_error") = some true ∧
    serializableSpanEntries true "sp" (.err "boom") = none :=
  c3_strict_lenient_policy "sp" (.err "boom") rfl

/-- C7: evaluation of the code at the failing input. An event with no
`message` field encodes to an object with no `message` key at all — its
keys are exactly `level`, `timestamp`, and the namespaced extra field —
rather than to a `message` set to the empty string. -/
theorem c7_message_key_absent :
    (onEventObject "ts" (EventData.mk .info [("foo", "bar")])).get "message"
      = none ∧
    (onEventObject "ts" (EventData.mk .info [("foo", "bar")])).keys =
      ["level", "timestamp", "_foo"] :=
  ⟨rfl, rfl⟩

/-- C9 counterexample: 513 producer sends on the freshly built pipeline
leave 513 buffered payloads — the buffered count exceeds the configured
capacity `DEFAULT_BUFFER` (512), refuting the claimed invariant at this
concrete input. -/
theorem c9_counterexample :
    DEFAULT_BUFFER = 512 ∧
    ((Builder.mk JObject.nil "svc" "h" "prod").connectUdp.2.applyOps
        (List.replicate 513 (MbOp.send []))).buffer.length = 513 ∧
    ¬(((Builder.mk JObject.nil "svc" "h" "prod").connectUdp.2.applyOps
        (List.replicate 513 (MbOp.send []))).buffer.length ≤
      DEFAULT_BUFFER) := by
  have h := sendsGrow 513
    (Builder.mk JObject.nil "svc" "h" "prod").connectUdp.2 rfl
  have hlen : ((Builder.mk JObject.nil "svc" "h" "prod").connectUdp.2.applyOps
      (List.replicate 513 (MbOp.send []))).buffer.length = 513 := by
    rw [h.1]
    rfl
  exact ⟨rfl, hlen, by rw [hlen]; decide⟩

/-- C9 (amended): `DEFAULT_BUFFER` (512) is the buffer size fixed at
pipeline construction, and the configured capacity never changes under
any operation sequence; but it does not bound the queue: every producer
call enqueues through a fresh sender clone holding a guaranteed slot, so
each send while the receiver lives appends its payload, and after n
sends the queue holds n payloads — the buffered count grows without
bound, past the configured capacity. -/
theorem c9_fixed_capacity_unbounded_queue (b : Builder) (ops : List MbOp)
    (n : Nat) :
    DEFAULT_BUFFER = 512 ∧
    (b.connectUdp.2.applyOps ops).capacity = DEFAULT_BUFFER ∧
    (b.connectUdp.2.applyOps (List.replicate n (MbOp.send []))).buffer.length
      = n := by
  have h := sendsGrow n b.connectUdp.2 rfl
  refine ⟨rfl, Mailbox.applyOps_capacity ops b.connectUdp.2, ?_⟩
  have h0 : b.connectUdp.2.buffer.length = 0 := rfl
  rw [h.1, h0, Nat.zero_add]

/-- C10: every payload the layer enqueues is the UTF-8 JSON serialization
of the event object followed by exactly one trailing zero byte: the byte
0 never occurs inside the serialized JSON text, and the payload ends with
the NUL terminator. -/
theorem c10_nul_terminated_payload (now : String) (ev : EventData) :
    payloadBytes now ev = jsonBytes (.obj (onEventObject now ev)) ++ [0] ∧
    (0 : Nat) ∉ jsonBytes (.obj (onEventObject now ev)) ∧
    (payloadBytes now ev).getLast? = some 0 := by
  refine ⟨rfl, jsonBytes_ne_zero _, ?_⟩
  rw [payloadBytes, List.getLast?_concat]

/-- C4 counterexample: with the mailbox closed and drained and an
environment that always resolves one address, always binds and always
sends, the background task's future still has not completed after 100
outer-loop iterations (each separated by the 10 s backoff sleep) — the
loop does not exit promptly. -/
theorem c4_counterexample :
    bgTerminatedWithin
      (BgEnv.mk (fun _ => [Addr.mk true]) (fun _ _ => true) (fun _ _ => true))
      (Mailbox.mk 512 [] true) 100 = false :=
  bgTerminatedWithin_false _ _ 100

/-- C4 (amended): once the mailbox is closed and drained, the inner send
loop of `handle_udp_connection` exits at once (its `while let` sees
`None`), but the background task itself never terminates: the outer
reconnection loop has no exit path, so for every iteration budget the
future is still running, spinning through resolve, an immediately
returning connection handler, and the backoff sleep, with the mailbox
state unchanged. -/
theorem c4_shipper_never_terminates (env : BgEnv) (n : Nat) (mb : Mailbox)
    (hclosed : mb.closed = true) (hdrained : mb.buffer = []) :
    bgTerminatedWithin env mb n = false ∧
    bgRunAux env 0 n mb = Sum.inr mb :=
  ⟨bgTerminatedWithin_false env mb n, bgRunAux_empty env 0 n mb hdrained⟩

/-- C4 witness: a concrete closed, drained mailbox and environment. -/
theorem c4_witness :
    bgTerminatedWithin
      (BgEnv.mk (fun _ => [Addr.mk false]) (fun _ _ => true) (fun _ _ => true))
      (Mailbox.mk 512 [] true) 64 = false ∧
    bgRunAux
      (BgEnv.mk (fun _ => [Addr.mk false]) (fun _ _ => true) (fun _ _ => true))
      0 64 (Mailbox.mk 512 [] true) = Sum.inr (Mailbox.mk 512 [] true) :=
  c4_shipper_never_terminates _ 64 _ rfl rfl

/-- C5 counterexample: 1000 consecutive iterations of the Connected send
loop in which the mailbox stays open and every send succeeds leave the
shipper in Connected — it never re-enters Resolving, because the loop
awaits only `receiver.next()` and `sink.send`; no timer fires during a
healthy connection. -/
theorem c5_counterexample : healthyRun 1000 = ShipperPhase.connected :=
  healthyRun_connected 1000

/-- C5 (amended): the send loop leaves Connected for Resolving exactly
when a send fails or the channel reports closed; with a healthy socket
and an open mailbox it stays Connected indefinitely. The fixed
`DEFAULT_TIMEOUT` sleep only spaces successive resolution rounds after
the send loop has already exited — there is no unconditional periodic
re-resolution. -/
theorem c5_resolving_only_on_failure_or_close (e : ConnEvent) :
    connectedStep e = ShipperPhase.resolving ↔
      (e = ConnEvent.recvItem false ∨ e = ConnEvent.recvClosed) := by
  cases e with
  | recvItem b => cases b <;> simp [connectedStep]
  | recvClosed => simp [connectedStep]

/-- C6: for every event whose field list contains an extra field named
`level` (with value `v` in its last occurrence), the encoded object's
top-level `level` key still holds the event's severity string — the
visitor never writes the reserved key — and the extra value appears under
the namespaced key `_level`. -/
theorem c6_reserved_key_precedence (now : String) (ev : EventData)
    (pre post : List (String × String)) (v : String)
    (hdecomp : ev.fields = pre ++ ("level", v) :: post)
    (hpost : ∀ f ∈ post, f.1 ≠ "level") :
    (onEventObject now ev).get "level" =
      some (.str (levelString ev.level)) ∧
    (onEventObject now ev).get "_level" = some (.str v) := by
  constructor
  · unfold onEventObject
    rw [applyFields_get_stable ev.fields _ "level"
      (fun f _ => visitKey_ne_level f.1)]
    rw [JObject.get_insert_ne _ "timestamp" "level" _ (by decide)]
    exact JObject.get_insert_self _ "level" _
  · unfold onEventObject
    rw [hdecomp, applyFields_append, applyFields_cons_pair]
    have hpost2 : ∀ f ∈ post, visitKey f.1 ≠ "_level" := fun f hf hk =>
      hpost f hf ((visitKey_eq_underscore_level_iff f.1).mp hk)
    rw [applyFields_get_stable post _ "_level" hpost2]
    rw [recordStr_eq_insert]
    rw [show visitKey "level" = "_level" by decide]
    exact JObject.get_insert_self _ "_level" _

/-- C6 witness: an Info event with a message field followed by an extra
field named level. -/
theorem c6_witness :
    (onEventObject "t" (EventData.mk .info
      [("message", "hi"), ("level", "bogus")])).get "level" =
      some (.str "Info") ∧
    (onEventObject "t" (EventData.mk .info
      [("message", "hi"), ("level", "bogus")])).get "_level" =
      some (.str "bogus") :=
  c6_reserved_key_precedence "t"
    (EventData.mk .info [("message", "hi"), ("level", "bogus")])
    [("message", "hi")] [] "bogus" rfl
    (fun f hf => absurd hf (List.not_mem_nil f))

/-- C8: whenever `format_event` completes, the emitted entry keys are, in
order: `@timestamp`, `level` and `facility` first (in that order); then
the event's own field names; then the structural tail — `target`, the
span and thread keys, and `file`, `module`, `line`, `host` when present.
In particular every extra event field precedes every structural key. -/
theorem c8_deterministic_key_order (da : Bool) (facility timestamp : String)
    (ev : FmtEvent) (currentSpan : Option SpanInfo) (scope : List SpanInfo)
    (threadId : String) (threadName hostname : Option String)
    (entries : List (String × JValue))
    (h : formatEventEntries da facility timestamp ev currentSpan scope
      threadId threadName hostname = some entries) :
    entries.map Prod.fst =
      ["@timestamp", "level", "facility"] ++ ev.fields.map Prod.fst ++
        structuralTail currentSpan threadName ev hostname := by
  obtain ⟨lvl, tgt, file, mp, line, fields⟩ := ev
  unfold formatEventEntries at h
  cases hs : spanEntriesOpt da currentSpan scope with
  | none =>
    rw [hs] at h
    simp at h
  | some se =>
    rw [hs] at h
    simp only [Option.map_some', Option.some.injEq] at h
    subst h
    have hsekeys : se.map Prod.fst =
        (match currentSpan with
         | some _ => ["spans", "span"]
         | none => ([] : List String)) := by
      cases currentSpan with
      | none =>
        simp only [spanEntriesOpt, Option.some.injEq] at hs
        subst hs
        rfl
      | some sp =>
        simp only [spanEntriesOpt] at hs
        cases hv : serializableContextVals da scope with
        | none => rw [hv] at hs; exact absurd hs (by simp)
        | some vs =>
          rw [hv] at hs
          simp only [Option.some_bind] at hs
          cases ho : serializableSpanEntries da sp.name sp.parsed with
          | none => rw [ho] at hs; exact absurd hs (by simp)
          | some so =>
            rw [ho] at hs
            simp only [Option.map_some', Option.some.injEq] at hs
            subst hs
            rfl
    cases currentSpan <;> cases threadName <;> cases file <;> cases mp <;>
      cases line <;> cases hostname <;>
      simp [structuralTail, optEntry, hsekeys, List.map_append,
        List.append_assoc]

/-- C8 witness: a concrete Warn event with one extra field, full source
location, a thread name and a hostname, and no current span. -/
theorem c8_witness :
    formatEventEntries false "svc" "ts"
      (FmtEvent.mk .warn "tgt" (some "f.rs") (some "m") (some 7)
        [("_k", JValue.str "v")]) none [] "tid" (some "tn") (some "hh") =
      some [("@timestamp", JValue.str "ts"), ("level", JValue.str "WARN"),
        ("facility", JValue.str "svc"), ("_k", JValue.str "v"),
        ("target", JValue.str "tgt"), ("thread_id", JValue.str "tid"),
        ("thread_name", JValue.str "tn"), ("file", JValue.str "f.rs"),
        ("module", JValue.str "m"), ("line", JValue.num 7),
        ("host", JValue.str "hh")] ∧
    ([("@timestamp", JValue.str "ts"), ("level", JValue.str "WARN"),
        ("facility", JValue.str "svc"), ("_k", JValue.str "v"),
        ("target", JValue.str "tgt"), ("thread_id", JValue.str "tid"),
        ("thread_name", JValue.str "tn"), ("file", JValue.str "f.rs"),
        ("module", JValue.str "m"), ("line", JValue.num 7),
        ("host", JValue.str "hh")].map Prod.fst =
      ["@timestamp", "level", "facility"] ++
        ([("_k", JValue.str "v")].map Prod.fst) ++
        structuralTail none (some "tn")
          (FmtEvent.mk .warn "tgt" (some "f.rs") (some "m") (some 7)
            [("_k", JValue.str "v")]) (some "hh")) :=
  ⟨rfl,
    c8_deterministic_key_order false "svc" "ts"
      (FmtEvent.mk .warn "tgt" (some "f.rs") (some "m") (some 7)
        [("_k", JValue.str "v")]) none [] "tid" (some "tn") (some "hh")
      _ rfl⟩

/-- C5 witness: a failed send leaves the Connected loop; a successful one
does not. -/
theorem c5_witness :
    connectedStep (ConnEvent.recvItem false) = ShipperPhase.resolving ∧
    connectedStep (ConnEvent.recvItem true) = ShipperPhase.connected :=
  ⟨(c5_resolving_only_on_failure_or_close (ConnEvent.recvItem false)).mpr
      (Or.inl rfl),
    rfl⟩

/-- C10 witness: a concrete Info event with no fields. -/
theorem c10_witness :
    payloadBytes "t" (EventData.mk .info []) =
      jsonBytes (.obj (onEventObject "t" (EventData.mk .info []))) ++ [0] ∧
    (0 : Nat) ∉ jsonBytes (.obj (onEventObject "t" (EventData.mk .info []))) ∧
    (payloadBytes "t" (EventData.mk .info [])).getLast? = some 0 :=
  c10_nul_terminated_payload "t" (EventData.mk .info [])
